import Mathlib

/-!
Verification of the review-service endpoints of `fastapi-shop`
(`app/routers/reviews.py`) against its specification.

The handlers are embedded as pure functions over a `Store` holding the
reviews table and the products table.  Each handler takes the store and
returns its HTTP-level result together with the store as left behind by
the handler (errors are raised before any write in the source, so error
results return the store unchanged).  SQL `AVG` is modelled as an
`Option Rat` (`none` for no rows), and Python's `x or 0.0` as
`orZeroFloat`.
-/

namespace FastapiShop

/-- Modelled from the spec: the `Review` ORM model (`app/models/reviews.py`
is not part of the provided sources); fields follow spec §3 and the
representation in §6.  `comment_date` is an abstract timestamp, ordered
as natural numbers. -/
structure Review where
  id : Nat
  comment : String
  grade : Int
  user_id : Nat
  product_id : Nat
  comment_date : Nat
  is_active : Bool
  deriving Repr, DecidableEq

/-- Modelled from the spec: the subset of the `Product` ORM model used by
the review service (spec §3): identity, activity flag and the derived
`rating`.  The rating is a float in the source; exact rational arithmetic
models the intended arithmetic mean. -/
structure Product where
  id : Nat
  is_active : Bool
  rating : Rat
  deriving Repr, DecidableEq

/-- The persistent state seen by the review service: the reviews table and
the products table, in storage order. -/
structure Store where
  reviews : List Review
  products : List Product
  deriving Repr, DecidableEq

/-- The error outcomes the handlers can raise (HTTP 403 / 404 / 422). -/
inductive Err where
  | Forbidden
  | NotFound
  | UnprocessableInput
  deriving Repr, DecidableEq

/-- The acknowledgment body returned by a successful delete. -/
structure DeleteAck where
  message : String
  deriving Repr, DecidableEq

/-- `select(Review).where(Review.product_id == pid, Review.is_active == True)`:
the active reviews of a product, in storage order. -/
def activeReviewsOf (reviews : List Review) (pid : Nat) : List Review :=
  reviews.filter (fun r => r.product_id == pid && r.is_active)

/-- Arithmetic mean of the grades of a list of reviews. -/
def meanGrade (l : List Review) : Rat :=
  ((l.map (fun r => (r.grade : Rat))).sum) / (l.length : Rat)

/-- `select(func.avg(Review.grade)).where(...)`: SQL `AVG` over the active
reviews of a product; `none` when no row matches. -/
def avgActiveGrade (reviews : List Review) (pid : Nat) : Option Rat :=
  if (activeReviewsOf reviews pid).isEmpty then none
  else some (meanGrade (activeReviewsOf reviews pid))

/-- Python's `result.scalar() or 0.0`: `NULL` becomes `0.0`, and so does a
falsy `0.0` (which it already is). -/
def orZeroFloat : Option Rat → Rat
  | none => 0
  | some v => if v = 0 then 0 else v

/-- The `avg_rating` value both handlers persist after a write. -/
def recomputedRating (reviews : List Review) (pid : Nat) : Rat :=
  orZeroFloat (avgActiveGrade reviews pid)

/-- The spec's description of the derived rating: the arithmetic mean of
`grade` over the currently active reviews of the product, or `0.0` when
none exist. -/
def specRating (reviews : List Review) (pid : Nat) : Rat :=
  if (activeReviewsOf reviews pid).isEmpty then 0
  else meanGrade (activeReviewsOf reviews pid)

/-- `select(Product).where(Product.id == pid, Product.is_active == True)`
followed by `.first()`. -/
def findActiveProduct (products : List Product) (pid : Nat) : Option Product :=
  products.find? (fun p => p.id == pid && p.is_active)

/-- `select(Review).where(Review.id == rid, Review.is_active == True)`
followed by `.first()`. -/
def findActiveReview (reviews : List Review) (rid : Nat) : Option Review :=
  reviews.find? (fun r => r.id == rid && r.is_active)

/-- `product = db.get(Product, pid); product.rating = rating`: the row with
primary key `pid` gets the new rating. -/
def updateRating (products : List Product) (pid : Nat) (rating : Rat) :
    List Product :=
  products.map (fun p => if p.id == pid then { p with rating := rating } else p)

/-- `update(Review).where(Review.id == rid).values(is_active=False)`. -/
def deactivate (reviews : List Review) (rid : Nat) : List Review :=
  reviews.map (fun r => if r.id == rid then { r with is_active := false } else r)

/-- `GET /reviews/`: all reviews with `is_active == True`, storage order.
Reads only; the store comes back as received. -/
def get_all_reviews (s : Store) : List Review × Store :=
  (s.reviews.filter (fun r => r.is_active), s)

/-- `GET /reviews/products/{product_id}/reviews`: 404 unless an active
product with the id exists, else the product's active reviews ordered by
`comment_date` descending.  Reads only. -/
def get_reviews_by_product (s : Store) (product_id : Nat) :
    Except Err (List Review) × Store :=
  match findActiveProduct s.products product_id with
  | none => (.error .NotFound, s)
  | some _ =>
    (.ok ((activeReviewsOf s.reviews product_id).mergeSort
        (fun a b => decide (b.comment_date ≤ a.comment_date))), s)

/-- `POST /reviews/`: role check, product check, grade check, then insert
the review and recompute the product's rating.  `new_id` and `now` stand
for the storage-assigned primary key and server timestamp. -/
def create_reviews (s : Store) (role : String) (user_id : Nat)
    (product_id : Nat) (comment : String) (grade : Int)
    (new_id : Nat) (now : Nat) : Except Err Review × Store :=
  if role ≠ "buyer" then (.error .Forbidden, s)
  else
    match findActiveProduct s.products product_id with
    | none => (.error .NotFound, s)
    | some _ =>
      if grade < 1 ∨ 5 < grade then (.error .UnprocessableInput, s)
      else
        let new_review : Review :=
          { id := new_id, comment := comment, grade := grade,
            user_id := user_id, product_id := product_id,
            comment_date := now, is_active := true }
        let reviews1 := s.reviews ++ [new_review]
        let avg_rating := recomputedRating reviews1 product_id
        (.ok new_review,
         { reviews := reviews1,
           products := updateRating s.products product_id avg_rating })

/-- `DELETE /reviews/{review_id}`: role check, active-review check, then
soft-delete and recompute the owning product's rating. -/
def delete_reviews (s : Store) (role : String) (review_id : Nat) :
    Except Err DeleteAck × Store :=
  if role ≠ "admin" then (.error .Forbidden, s)
  else
    match findActiveReview s.reviews review_id with
    | none => (.error .NotFound, s)
    | some review =>
      let reviews1 := deactivate s.reviews review_id
      let avg_rating := recomputedRating reviews1 review.product_id
      (.ok { message := "Review deleted" },
       { reviews := reviews1,
         products := updateRating s.products review.product_id avg_rating })

/-- The spec's rating invariant: every product's stored rating is the mean
grade of its currently active reviews, or `0.0` when it has none. -/
def ratingInv (s : Store) : Prop :=
  ∀ p ∈ s.products, p.rating = specRating s.reviews p.id

instance (s : Store) : Decidable (ratingInv s) := by
  unfold ratingInv; infer_instance

/-! ### Helper lemmas -/

theorem orZeroFloat_some (v : Rat) : orZeroFloat (some v) = v := by
  by_cases h : v = 0 <;> simp [orZeroFloat, h]

theorem recomputedRating_eq_specRating (l : List Review) (pid : Nat) :
    recomputedRating l pid = specRating l pid := by
  by_cases h : (activeReviewsOf l pid).isEmpty
  · simp [recomputedRating, avgActiveGrade, specRating, h, orZeroFloat]
  · simp [recomputedRating, avgActiveGrade, specRating, h, orZeroFloat_some]

theorem specRating_congr {l l' : List Review} {pid : Nat}
    (h : activeReviewsOf l pid = activeReviewsOf l' pid) :
    specRating l pid = specRating l' pid := by
  unfold specRating
  rw [h]

theorem activeReviewsOf_append_ne (l : List Review) (r : Review) (q : Nat)
    (h : r.product_id ≠ q) :
    activeReviewsOf (l ++ [r]) q = activeReviewsOf l q := by
  simp [activeReviewsOf, List.filter_append, h]

theorem activeReviewsOf_deactivate_ne (l : List Review) (rid : Nat) (P q : Nat)
    (hq : q ≠ P) (hall : ∀ r ∈ l, r.id = rid → r.product_id = P) :
    activeReviewsOf (deactivate l rid) q = activeReviewsOf l q := by
  unfold activeReviewsOf deactivate
  rw [List.filter_map]
  have h1 : List.filter ((fun r => r.product_id == q && r.is_active) ∘
        (fun r => if r.id == rid then { r with is_active := false } else r)) l
      = List.filter (fun r => r.product_id == q && r.is_active) l := by
    apply List.filter_congr
    intro r hr
    by_cases hrid : r.id = rid
    · have hbq : (r.product_id == q) = false := by
        have hP : r.product_id = P := hall r hr hrid
        rw [hP]
        exact beq_false_of_ne (fun h => hq h.symm)
      simp [Function.comp, hrid, hbq]
    · simp [Function.comp, hrid]
  rw [h1]
  have h2 : ∀ r ∈ List.filter (fun r => r.product_id == q && r.is_active) l,
      (if (r.id == rid) = true then { r with is_active := false } else r) = r := by
    intro r hr
    rw [List.mem_filter] at hr
    have hq2 : r.product_id = q := by
      have h := hr.2
      simp only [Bool.and_eq_true, beq_iff_eq] at h
      exact h.1
    have hnr : ¬ r.id = rid := fun hrid =>
      hq (by rw [← hq2, hall r hr.1 hrid])
    rw [if_neg (by simpa using hnr)]
  calc List.map (fun r => if r.id == rid then { r with is_active := false } else r)
        (List.filter (fun r => r.product_id == q && r.is_active) l)
      = List.map id (List.filter (fun r => r.product_id == q && r.is_active) l) := by
        apply List.map_congr_left
        intro a ha
        exact h2 a ha
    _ = List.filter (fun r => r.product_id == q && r.is_active) l := List.map_id _

theorem findActiveProduct_isSome_iff (ps : List Product) (pid : Nat) :
    (findActiveProduct ps pid).isSome = true ↔
      ∃ p ∈ ps, p.id = pid ∧ p.is_active = true := by
  simp [findActiveProduct, List.find?_isSome, Bool.and_eq_true, beq_iff_eq]

theorem findActiveProduct_eq_none_iff (ps : List Product) (pid : Nat) :
    findActiveProduct ps pid = none ↔
      ∀ p ∈ ps, ¬ (p.id = pid ∧ p.is_active = true) := by
  simp [findActiveProduct, List.find?_eq_none, Bool.and_eq_true, beq_iff_eq, not_and]

theorem findActiveReview_eq_none_iff (l : List Review) (rid : Nat) :
    findActiveReview l rid = none ↔
      ∀ r ∈ l, ¬ (r.id = rid ∧ r.is_active = true) := by
  simp [findActiveReview, List.find?_eq_none, Bool.and_eq_true, beq_iff_eq, not_and]

/-! ### Concrete stores used by the witnesses -/

def demoReview : Review :=
  { id := 5, comment := "ok", grade := 4, user_id := 2, product_id := 1,
    comment_date := 50, is_active := true }

def demoProduct : Product :=
  { id := 1, is_active := true, rating := 4 }

/-- A store satisfying the rating invariant: one active product whose only
active review has grade 4, and rating 4. -/
def demoStore : Store :=
  { reviews := [demoReview], products := [demoProduct] }

/-! ### C1 -/

/-- C1: after every successful create-review or delete-review operation,
every product's stored rating equals the arithmetic mean of `grade` over
its currently active reviews, or `0.0` when it has none — provided the
invariant held beforehand and review ids are unique (primary keys). -/
theorem rating_invariant_preserved (s : Store)
    (hinv : ratingInv s) (hids : (s.reviews.map Review.id).Nodup) :
    (∀ role uid pid c g nid now,
        ((create_reviews s role uid pid c g nid now).1).isOk = true →
        ratingInv (create_reviews s role uid pid c g nid now).2) ∧
    (∀ role rid,
        ((delete_reviews s role rid).1).isOk = true →
        ratingInv (delete_reviews s role rid).2) := by
  constructor
  · intro role uid pid c g nid now hok
    unfold create_reviews at hok ⊢
    by_cases hrole : role ≠ "buyer"
    · rw [if_pos hrole] at hok
      simp [Except.isOk, Except.toBool] at hok
    rw [if_neg hrole] at hok ⊢
    cases hfp : findActiveProduct s.products pid with
    | none =>
      rw [hfp] at hok
      simp [Except.isOk, Except.toBool] at hok
    | some p0 =>
      rw [hfp] at hok
      by_cases hg : g < 1 ∨ 5 < g
      · rw [if_pos hg] at hok
        simp [Except.isOk, Except.toBool] at hok
      dsimp only
      rw [if_neg hg]
      dsimp only
      unfold ratingInv
      intro p1 hp1
      dsimp only at hp1
      simp only [updateRating, List.mem_map] at hp1
      obtain ⟨p, hp, hdef⟩ := hp1
      by_cases hid : p.id = pid
      · rw [if_pos (by simpa using hid)] at hdef
        subst hdef
        dsimp only
        rw [hid]
        exact recomputedRating_eq_specRating _ pid
      · rw [if_neg (by simpa using hid)] at hdef
        subst hdef
        dsimp only
        rw [hinv p hp]
        exact specRating_congr
          (activeReviewsOf_append_ne s.reviews _ p.id
            (fun h => hid h.symm)).symm
  · intro role rid hok
    unfold delete_reviews at hok ⊢
    by_cases hrole : role ≠ "admin"
    · rw [if_pos hrole] at hok
      simp [Except.isOk, Except.toBool] at hok
    rw [if_neg hrole] at hok ⊢
    cases hfr : findActiveReview s.reviews rid with
    | none =>
      rw [hfr] at hok
      simp [Except.isOk, Except.toBool] at hok
    | some r0 =>
      dsimp only
      unfold ratingInv
      simp only [findActiveReview] at hfr
      have hr0mem : r0 ∈ s.reviews := List.mem_of_find?_eq_some hfr
      have hr0id : r0.id = rid := by
        have h := List.find?_some hfr
        simp only [Bool.and_eq_true, beq_iff_eq] at h
        exact h.1
      have hall : ∀ r ∈ s.reviews, r.id = rid → r.product_id = r0.product_id := by
        intro r hr hid2
        have h : r = r0 :=
          List.inj_on_of_nodup_map hids hr hr0mem (by rw [hid2, hr0id])
        rw [h]
      intro p1 hp1
      dsimp only at hp1
      simp only [updateRating, List.mem_map] at hp1
      obtain ⟨p, hp, hdef⟩ := hp1
      by_cases hid : p.id = r0.product_id
      · rw [if_pos (by simpa using hid)] at hdef
        subst hdef
        dsimp only
        rw [hid]
        exact recomputedRating_eq_specRating (deactivate s.reviews rid) r0.product_id
      · rw [if_neg (by simpa using hid)] at hdef
        subst hdef
        dsimp only
        rw [hinv p hp]
        exact specRating_congr
          (activeReviewsOf_deactivate_ne s.reviews rid r0.product_id p.id hid hall).symm

/-- Witness for C1: at `demoStore` the invariant holds, review ids are
unique, and both a successful creation (grade 2 by buyer 7) and a
successful deletion (review 5 by an admin) re-establish the invariant. -/
theorem rating_invariant_preserved_witness :
    ratingInv (create_reviews demoStore "buyer" 7 1 "nice" 2 6 60).2 ∧
    ratingInv (delete_reviews demoStore "admin" 5).2 := by
  have h := rating_invariant_preserved demoStore
    (by simp [ratingInv, demoStore, demoProduct, demoReview, specRating,
          activeReviewsOf, meanGrade])
    (by decide)
  exact ⟨h.1 "buyer" 7 1 "nice" 2 6 60 (by decide), h.2 "admin" 5 (by decide)⟩

/-! ### C2 -/

theorem activeReviewsOf_append_self (l : List Review) (r : Review) (q : Nat)
    (hpid : r.product_id = q) (hact : r.is_active = true) :
    activeReviewsOf (l ++ [r]) q = activeReviewsOf l q ++ [r] := by
  simp [activeReviewsOf, List.filter_append, hpid, hact]

theorem recomputedRating_of_ne_nil {l : List Review} {pid : Nat}
    (h : activeReviewsOf l pid ≠ []) :
    recomputedRating l pid = meanGrade (activeReviewsOf l pid) := by
  have h2 : (activeReviewsOf l pid).isEmpty = false := by
    simpa [List.isEmpty_iff] using h
  simp [recomputedRating, avgActiveGrade, h2, orZeroFloat_some]

/-- C2: a create-review request by a buyer for an existing active product
with a grade in `[1,5]` succeeds: it returns the created review (active,
owned by the caller, carrying the given comment, grade and product id),
appends exactly that review to the stored reviews, persists the product's
rating as the mean grade of the product's active reviews, and leaves
every other product untouched. -/
theorem create_review_success (s : Store) (uid pid : Nat) (c : String)
    (g : Int) (nid now : Nat)
    (hp : ∃ p ∈ s.products, p.id = pid ∧ p.is_active = true)
    (hg1 : 1 ≤ g) (hg5 : g ≤ 5) :
    ∃ s1, create_reviews s "buyer" uid pid c g nid now =
        (.ok { id := nid, comment := c, grade := g, user_id := uid,
               product_id := pid, comment_date := now, is_active := true }, s1) ∧
      s1.reviews = s.reviews ++
        [{ id := nid, comment := c, grade := g, user_id := uid,
           product_id := pid, comment_date := now, is_active := true }] ∧
      (∀ p ∈ s1.products, p.id = pid →
        p.rating = meanGrade (activeReviewsOf s1.reviews pid)) ∧
      (∀ p ∈ s1.products, p.id ≠ pid → p ∈ s.products) := by
  have hps : (findActiveProduct s.products pid).isSome = true :=
    (findActiveProduct_isSome_iff s.products pid).mpr hp
  obtain ⟨p0, hp0⟩ := Option.isSome_iff_exists.mp hps
  unfold create_reviews
  rw [if_neg (show ¬ ("buyer" ≠ "buyer") by simp), hp0,
    if_neg (show ¬ (g < 1 ∨ 5 < g) by omega)]
  dsimp only
  refine ⟨_, rfl, rfl, ?_, ?_⟩
  · intro p hp1 hpid
    dsimp only at hp1
    simp only [updateRating, List.mem_map] at hp1
    obtain ⟨q, hq, hdef⟩ := hp1
    by_cases hqid : q.id = pid
    · rw [if_pos (by simpa using hqid)] at hdef
      subst hdef
      dsimp only
      apply recomputedRating_of_ne_nil
      rw [activeReviewsOf_append_self s.reviews _ pid rfl rfl]
      simp
    · rw [if_neg (by simpa using hqid)] at hdef
      subst hdef
      exact absurd hpid hqid
  · intro p hp1 hpid
    dsimp only at hp1
    simp only [updateRating, List.mem_map] at hp1
    obtain ⟨q, hq, hdef⟩ := hp1
    by_cases hqid : q.id = pid
    · rw [if_pos (by simpa using hqid)] at hdef
      subst hdef
      exact absurd hqid (by simpa using hpid)
    · rw [if_neg (by simpa using hqid)] at hdef
      subst hdef
      exact hq

/-- Witness for C2: buyer 7 reviews product 1 of `demoStore` with grade 2;
the call succeeds and its postconditions hold. -/
theorem create_review_success_witness :
    ∃ s1, create_reviews demoStore "buyer" 7 1 "nice" 2 6 60 =
        (.ok { id := 6, comment := "nice", grade := 2, user_id := 7,
               product_id := 1, comment_date := 60, is_active := true }, s1) ∧
      s1.reviews = demoStore.reviews ++
        [{ id := 6, comment := "nice", grade := 2, user_id := 7,
           product_id := 1, comment_date := 60, is_active := true }] ∧
      (∀ p ∈ s1.products, p.id = 1 →
        p.rating = meanGrade (activeReviewsOf s1.reviews 1)) ∧
      (∀ p ∈ s1.products, p.id ≠ 1 → p ∈ demoStore.products) :=
  create_review_success demoStore 7 1 "nice" 2 6 60
    ⟨demoProduct, by simp [demoStore], by simp [demoProduct]⟩
    (by decide) (by decide)

/-! ### C3 -/

/-- C3: listing the reviews of a product fails with `NotFound` exactly
when no active product with the given id exists; on success it returns a
permutation of the product's active reviews — a review is in the result
iff it is a stored review of that product with `is_active = true` — and
the result is ordered by `comment_date` descending. -/
theorem list_reviews_by_product_spec (s : Store) (pid : Nat) :
    ((get_reviews_by_product s pid).1 = .error .NotFound ↔
      ¬ ∃ p ∈ s.products, p.id = pid ∧ p.is_active = true) ∧
    (∀ l, (get_reviews_by_product s pid).1 = .ok l →
      l.Perm (activeReviewsOf s.reviews pid) ∧
      (∀ r, r ∈ l ↔ r ∈ s.reviews ∧ r.product_id = pid ∧ r.is_active = true) ∧
      l.Pairwise (fun a b => b.comment_date ≤ a.comment_date)) := by
  cases hfp : findActiveProduct s.products pid with
  | none =>
    constructor
    · have hall := (findActiveProduct_eq_none_iff s.products pid).mp hfp
      simp only [get_reviews_by_product, hfp]
      refine ⟨fun _ => ?_, fun _ => trivial⟩
      rintro ⟨p, hp, hpid, hact⟩
      exact hall p hp ⟨hpid, hact⟩
    · intro l hl
      simp [get_reviews_by_product, hfp] at hl
  | some p0 =>
    constructor
    · simp only [get_reviews_by_product, hfp]
      constructor
      · intro h
        exact absurd h (by simp)
      · intro h
        have h2 : (findActiveProduct s.products pid).isSome = true := by
          rw [hfp]; rfl
        exact absurd ((findActiveProduct_isSome_iff s.products pid).mp h2) h
    · intro l hl
      simp only [get_reviews_by_product, hfp, Except.ok.injEq] at hl
      subst hl
      have hperm : ((activeReviewsOf s.reviews pid).mergeSort
          (fun a b => decide (b.comment_date ≤ a.comment_date))).Perm
            (activeReviewsOf s.reviews pid) :=
        List.mergeSort_perm (activeReviewsOf s.reviews pid) _
      refine ⟨hperm, ?_, ?_⟩
      · intro r
        rw [hperm.mem_iff]
        simp [activeReviewsOf, List.mem_filter, and_assoc]
      · have hs := @List.sorted_mergeSort Review
          (fun a b : Review => decide (b.comment_date ≤ a.comment_date))
          (by intro a b cc h1 h2; simp only [decide_eq_true_eq] at *; omega)
          (by intro a b; simp only [Bool.or_eq_true, decide_eq_true_eq]; omega)
          (activeReviewsOf s.reviews pid)
        exact hs.imp (by intro a b h; simpa using h)

/-- Witness for C3: in `demoStore`, product 1 is active and its review
list is `[demoReview]`; product 2 does not exist, so listing it reports
`NotFound`. -/
theorem list_reviews_by_product_spec_witness :
    ((get_reviews_by_product demoStore 2).1 = .error .NotFound) ∧
    ([demoReview].Perm (activeReviewsOf demoStore.reviews 1) ∧
      (∀ r, r ∈ [demoReview] ↔
        r ∈ demoStore.reviews ∧ r.product_id = 1 ∧ r.is_active = true) ∧
      ([demoReview] : List Review).Pairwise
        (fun a b => b.comment_date ≤ a.comment_date)) := by
  constructor
  · exact ((list_reviews_by_product_spec demoStore 2).1).mpr
      (by simp [demoStore, demoProduct])
  · exact (list_reviews_by_product_spec demoStore 1).2 [demoReview]
      (by simp [get_reviews_by_product, demoStore, findActiveProduct,
            demoProduct, activeReviewsOf, demoReview, List.mergeSort])

/-! ### C4 -/

/-- C4: listing all reviews returns exactly the stored reviews with
`is_active = true`; no inactive review appears in its result, nor in any
successful list-by-product result. -/
theorem listings_exclude_inactive (s : Store) :
    (∀ r, r ∈ (get_all_reviews s).1 ↔ r ∈ s.reviews ∧ r.is_active = true) ∧
    (∀ r ∈ (get_all_reviews s).1, r.is_active = true) ∧
    (∀ pid l, (get_reviews_by_product s pid).1 = .ok l →
      ∀ r ∈ l, r.is_active = true) := by
  refine ⟨?_, ?_, ?_⟩
  · intro r
    simp [get_all_reviews, List.mem_filter]
  · intro r hr
    simp only [get_all_reviews, List.mem_filter] at hr
    exact hr.2
  · intro pid l hl r hr
    cases hfp : findActiveProduct s.products pid with
    | none => simp [get_reviews_by_product, hfp] at hl
    | some p0 =>
      simp only [get_reviews_by_product, hfp, Except.ok.injEq] at hl
      subst hl
      have hperm := List.mergeSort_perm (activeReviewsOf s.reviews pid)
        (fun a b => decide (b.comment_date ≤ a.comment_date))
      have hr2 := hperm.mem_iff.mp hr
      rw [activeReviewsOf, List.mem_filter] at hr2
      simp only [Bool.and_eq_true, beq_iff_eq] at hr2
      exact hr2.2.2

/-- Witness for C4 at `demoStore`: the active `demoReview` is listed, and
every review in the product-1 listing is active. -/
theorem listings_exclude_inactive_witness :
    (demoReview ∈ (get_all_reviews demoStore).1 ↔
      demoReview ∈ demoStore.reviews ∧ demoReview.is_active = true) ∧
    demoReview.is_active = true ∧
    (∀ r ∈ [demoReview], r.is_active = true) := by
  have h := listings_exclude_inactive demoStore
  refine ⟨h.1 demoReview, h.2.1 demoReview (by decide), h.2.2 1 [demoReview]
    (by simp [get_reviews_by_product, demoStore, findActiveProduct,
          demoProduct, activeReviewsOf, demoReview, List.mergeSort])⟩

/-! ### C5 -/

/-- C5: with a buyer caller and an existing active product, creation
fails with `UnprocessableInput` for every grade outside `[1,5]`, and
succeeds for every grade in `[1,5]`. -/
theorem create_grade_validation (s : Store) (uid pid : Nat) (c : String)
    (nid now : Nat)
    (hp : ∃ p ∈ s.products, p.id = pid ∧ p.is_active = true) :
    (∀ g : Int, (g < 1 ∨ 5 < g) →
      (create_reviews s "buyer" uid pid c g nid now).1 =
        .error .UnprocessableInput) ∧
    (∀ g : Int, 1 ≤ g → g ≤ 5 →
      ((create_reviews s "buyer" uid pid c g nid now).1).isOk = true) := by
  have hps : (findActiveProduct s.products pid).isSome = true :=
    (findActiveProduct_isSome_iff s.products pid).mpr hp
  obtain ⟨p0, hp0⟩ := Option.isSome_iff_exists.mp hps
  constructor
  · intro g hg
    unfold create_reviews
    rw [if_neg (show ¬ ("buyer" ≠ "buyer") by simp), hp0, if_pos hg]
  · intro g hg1 hg5
    unfold create_reviews
    rw [if_neg (show ¬ ("buyer" ≠ "buyer") by simp), hp0,
      if_neg (show ¬ (g < 1 ∨ 5 < g) by omega)]
    rfl

/-- Witness for C5 at `demoStore`, product 1: grades 0, 6 and -1 are
rejected as unprocessable, grade 3 is accepted. -/
theorem create_grade_validation_witness :
    (create_reviews demoStore "buyer" 7 1 "bad" 0 6 60).1 =
      .error .UnprocessableInput ∧
    (create_reviews demoStore "buyer" 7 1 "bad" 6 6 60).1 =
      .error .UnprocessableInput ∧
    (create_reviews demoStore "buyer" 7 1 "bad" (-1) 6 60).1 =
      .error .UnprocessableInput ∧
    ((create_reviews demoStore "buyer" 7 1 "good" 3 6 60).1).isOk = true := by
  have hb := create_grade_validation demoStore 7 1 "bad" 6 60
    ⟨demoProduct, by simp [demoStore], by simp [demoProduct]⟩
  have hg := create_grade_validation demoStore 7 1 "good" 6 60
    ⟨demoProduct, by simp [demoStore], by simp [demoProduct]⟩
  exact ⟨hb.1 0 (by omega), hb.1 6 (by omega), hb.1 (-1) (by omega),
    hg.2 3 (by omega) (by omega)⟩

/-! ### C6 -/

/-- C6: creation fails with `Forbidden` for every caller whose role is
not "buyer" (leaving the store unchanged), and for a buyer it fails with
`NotFound` when no active product with the requested id exists. -/
theorem create_role_and_product_checks (s : Store) (role : String)
    (uid pid : Nat) (c : String) (g : Int) (nid now : Nat) :
    (role ≠ "buyer" →
      create_reviews s role uid pid c g nid now = (.error .Forbidden, s)) ∧
    ((∀ p ∈ s.products, ¬ (p.id = pid ∧ p.is_active = true)) →
      create_reviews s "buyer" uid pid c g nid now = (.error .NotFound, s)) := by
  constructor
  · intro hrole
    unfold create_reviews
    rw [if_pos hrole]
  · intro hnone
    have h0 : findActiveProduct s.products pid = none :=
      (findActiveProduct_eq_none_iff s.products pid).mpr hnone
    unfold create_reviews
    rw [if_neg (show ¬ ("buyer" ≠ "buyer") by simp), h0]

/-- Witness for C6: an admin caller is rejected with `Forbidden`, and a
buyer naming the missing product 2 gets `NotFound`. -/
theorem create_role_and_product_checks_witness :
    create_reviews demoStore "admin" 7 1 "hi" 3 6 60 =
      (.error .Forbidden, demoStore) ∧
    create_reviews demoStore "buyer" 7 2 "hi" 3 6 60 =
      (.error .NotFound, demoStore) := by
  have h1 := create_role_and_product_checks demoStore "admin" 7 1 "hi" 3 6 60
  have h2 := create_role_and_product_checks demoStore "buyer" 7 2 "hi" 3 6 60
  exact ⟨h1.1 (by decide), h2.2 (by decide)⟩

/-! ### C7 -/

theorem findActiveReview_deactivate_self (l : List Review) (rid : Nat) :
    findActiveReview (deactivate l rid) rid = none := by
  simp only [findActiveReview, deactivate, List.find?_eq_none]
  intro x hx
  obtain ⟨r, hr, hdef⟩ := List.mem_map.mp hx
  by_cases hb : r.id = rid
  · rw [if_pos (by simpa using hb)] at hdef
    subst hdef
    simp
  · rw [if_neg (by simpa using hb)] at hdef
    subst hdef
    simp [hb]

/-- C7: deletion fails with `Forbidden` for every caller whose role is
not "admin", fails with `NotFound` when no active review with the given
id exists, and after a successful deletion a second deletion of the same
review reports `NotFound`. -/
theorem delete_role_and_review_checks (s : Store) (role : String) (rid : Nat) :
    (role ≠ "admin" → delete_reviews s role rid = (.error .Forbidden, s)) ∧
    ((∀ r ∈ s.reviews, ¬ (r.id = rid ∧ r.is_active = true)) →
      delete_reviews s "admin" rid = (.error .NotFound, s)) ∧
    (∀ ack s1, delete_reviews s "admin" rid = (.ok ack, s1) →
      (delete_reviews s1 "admin" rid).1 = .error .NotFound) := by
  refine ⟨?_, ?_, ?_⟩
  · intro hrole
    unfold delete_reviews
    rw [if_pos hrole]
  · intro hnone
    have h0 : findActiveReview s.reviews rid = none :=
      (findActiveReview_eq_none_iff s.reviews rid).mpr hnone
    unfold delete_reviews
    rw [if_neg (show ¬ ("admin" ≠ "admin") by simp), h0]
  · intro ack s1 hok
    unfold delete_reviews at hok ⊢
    rw [if_neg (show ¬ ("admin" ≠ "admin") by simp)] at hok ⊢
    cases hfr : findActiveReview s.reviews rid with
    | none =>
      rw [hfr] at hok
      simp at hok
    | some r0 =>
      rw [hfr] at hok
      dsimp only at hok
      simp only [Prod.mk.injEq] at hok
      rw [← hok.2]
      dsimp only
      rw [findActiveReview_deactivate_self]

/-- Witness for C7 at `demoStore`: a buyer cannot delete, deleting the
missing review 99 is `NotFound`, and deleting review 5 twice makes the
second call report `NotFound`. -/
theorem delete_role_and_review_checks_witness :
    delete_reviews demoStore "buyer" 5 = (.error .Forbidden, demoStore) ∧
    delete_reviews demoStore "admin" 99 = (.error .NotFound, demoStore) ∧
    (delete_reviews (delete_reviews demoStore "admin" 5).2 "admin" 5).1 =
      .error .NotFound := by
  have h := delete_role_and_review_checks demoStore "buyer" 5
  have h99 := delete_role_and_review_checks demoStore "admin" 99
  refine ⟨h.1 (by decide), h99.2.1 (by decide), ?_⟩
  exact h.2.2 { message := "Review deleted" } (delete_reviews demoStore "admin" 5).2
    (Prod.ext (by rfl) rfl)

/-! ### C8 -/

/-- C8: a successful deletion returns the acknowledgment message
"Review deleted" and changes only the target review's `is_active` flag
and the owning product's rating: every review keeps its position, id,
comment, grade, user id, product id and date (reviews other than the
target are completely unchanged, the target becomes inactive), and every
product keeps its position, id and activity flag, with products other
than the target's owner completely unchanged. -/
theorem delete_frame_effect (s : Store) (rid : Nat) (ack : DeleteAck)
    (s1 : Store) (hok : delete_reviews s "admin" rid = (.ok ack, s1)) :
    ack.message = "Review deleted" ∧
    ∃ r0, findActiveReview s.reviews rid = some r0 ∧
      (s1.reviews.length = s.reviews.length ∧
        ∀ i (hi : i < s.reviews.length) (hi1 : i < s1.reviews.length),
          (s1.reviews.get ⟨i, hi1⟩).id = (s.reviews.get ⟨i, hi⟩).id ∧
          (s1.reviews.get ⟨i, hi1⟩).comment = (s.reviews.get ⟨i, hi⟩).comment ∧
          (s1.reviews.get ⟨i, hi1⟩).grade = (s.reviews.get ⟨i, hi⟩).grade ∧
          (s1.reviews.get ⟨i, hi1⟩).user_id = (s.reviews.get ⟨i, hi⟩).user_id ∧
          (s1.reviews.get ⟨i, hi1⟩).product_id =
            (s.reviews.get ⟨i, hi⟩).product_id ∧
          (s1.reviews.get ⟨i, hi1⟩).comment_date =
            (s.reviews.get ⟨i, hi⟩).comment_date ∧
          ((s.reviews.get ⟨i, hi⟩).id ≠ rid →
            s1.reviews.get ⟨i, hi1⟩ = s.reviews.get ⟨i, hi⟩) ∧
          ((s.reviews.get ⟨i, hi⟩).id = rid →
            (s1.reviews.get ⟨i, hi1⟩).is_active = false)) ∧
      (s1.products.length = s.products.length ∧
        ∀ j (hj : j < s.products.length) (hj1 : j < s1.products.length),
          (s1.products.get ⟨j, hj1⟩).id = (s.products.get ⟨j, hj⟩).id ∧
          (s1.products.get ⟨j, hj1⟩).is_active =
            (s.products.get ⟨j, hj⟩).is_active ∧
          ((s.products.get ⟨j, hj⟩).id ≠ r0.product_id →
            s1.products.get ⟨j, hj1⟩ = s.products.get ⟨j, hj⟩)) := by
  unfold delete_reviews at hok
  rw [if_neg (show ¬ ("admin" ≠ "admin") by simp)] at hok
  cases hfr : findActiveReview s.reviews rid with
  | none =>
    rw [hfr] at hok
    simp at hok
  | some r0 =>
    rw [hfr] at hok
    dsimp only at hok
    simp only [Prod.mk.injEq, Except.ok.injEq] at hok
    obtain ⟨hack, hs1⟩ := hok
    subst hs1
    refine ⟨by rw [← hack], r0, rfl, ⟨by simp [deactivate], ?_⟩,
      ⟨by simp [updateRating], ?_⟩⟩
    · intro i hi hi1
      have hg : (deactivate s.reviews rid).get ⟨i, by simpa [deactivate] using hi⟩ =
          (fun r => if r.id == rid then { r with is_active := false } else r)
            (s.reviews.get ⟨i, hi⟩) := by
        simp [deactivate]
      dsimp only at hi1 ⊢
      rw [hg]
      dsimp only
      by_cases hb : (s.reviews.get ⟨i, hi⟩).id = rid
      · rw [if_pos (by simpa using hb)]
        exact ⟨rfl, rfl, rfl, rfl, rfl, rfl, fun hc => absurd hb hc, fun _ => rfl⟩
      · rw [if_neg (by simpa using hb)]
        exact ⟨rfl, rfl, rfl, rfl, rfl, rfl, fun _ => rfl, fun hc => absurd hc hb⟩
    · intro j hj hj1
      set rat := recomputedRating (deactivate s.reviews rid) r0.product_id with hrat
      have hg : (updateRating s.products r0.product_id rat).get
              ⟨j, by simpa [updateRating] using hj⟩ =
          (fun p => if p.id == r0.product_id then { p with rating := rat } else p)
            (s.products.get ⟨j, hj⟩) := by
        simp [updateRating]
      dsimp only at hj1 ⊢
      rw [hg]
      dsimp only
      by_cases hb : (s.products.get ⟨j, hj⟩).id = r0.product_id
      · rw [if_pos (by simpa using hb)]
        exact ⟨rfl, rfl, fun hc => absurd hb hc⟩
      · rw [if_neg (by simpa using hb)]
        exact ⟨rfl, rfl, fun _ => rfl⟩

/-- Witness for C8: deleting review 5 of `demoStore` as admin succeeds,
the review is found active beforehand, and the review table keeps its
length. -/
theorem delete_frame_effect_witness :
    ∃ r0, findActiveReview demoStore.reviews 5 = some r0 ∧
      (delete_reviews demoStore "admin" 5).2.reviews.length =
        demoStore.reviews.length := by
  obtain ⟨-, r0, hfr, ⟨hlen, -⟩, -⟩ := delete_frame_effect demoStore 5
    { message := "Review deleted" } (delete_reviews demoStore "admin" 5).2
    (Prod.ext (by rfl) rfl)
  exact ⟨r0, hfr, hlen⟩

/-! ### C9 -/

/-- C9: the creation checks run in the order role, product, grade: a
non-buyer always gets `Forbidden` whatever the product or grade, and a
buyer naming a product with no active record always gets `NotFound`,
even when the grade is also out of range. -/
theorem create_check_precedence (s : Store) (role : String) (uid : Nat)
    (c : String) (nid now : Nat) :
    (role ≠ "buyer" → ∀ (pid : Nat) (g : Int),
      (create_reviews s role uid pid c g nid now).1 = .error .Forbidden) ∧
    (∀ pid : Nat, (∀ p ∈ s.products, ¬ (p.id = pid ∧ p.is_active = true)) →
      ∀ g : Int, (g < 1 ∨ 5 < g) →
        (create_reviews s "buyer" uid pid c g nid now).1 = .error .NotFound) := by
  constructor
  · intro hrole pid g
    unfold create_reviews
    rw [if_pos hrole]
  · intro pid hnone g _
    have h0 : findActiveProduct s.products pid = none :=
      (findActiveProduct_eq_none_iff s.products pid).mpr hnone
    unfold create_reviews
    rw [if_neg (show ¬ ("buyer" ≠ "buyer") by simp), h0]

/-- Witness for C9: an admin with an out-of-range grade on a missing
product gets `Forbidden`; a buyer with grade 0 on the missing product 2
gets `NotFound`, not `UnprocessableInput`. -/
theorem create_check_precedence_witness :
    (create_reviews demoStore "admin" 7 2 "hi" 0 6 60).1 = .error .Forbidden ∧
    (create_reviews demoStore "buyer" 7 2 "hi" 0 6 60).1 = .error .NotFound := by
  have h := create_check_precedence demoStore "admin" 7 "hi" 6 60
  have h2 := create_check_precedence demoStore "buyer" 7 "hi" 6 60
  exact ⟨h.1 (by decide) 2 0, h2.2 2 (by decide) 0 (by decide)⟩

/-! ### C10 -/

/-- C10: every failing operation leaves the store exactly as it was:
create and delete return the incoming store on all of their error
results, and the two listing operations always return the incoming
store. -/
theorem error_paths_leave_store_unchanged (s : Store) :
    (∀ (role : String) (uid pid : Nat) (c : String) (g : Int) (nid now : Nat)
      (e : Err), (create_reviews s role uid pid c g nid now).1 = .error e →
      (create_reviews s role uid pid c g nid now).2 = s) ∧
    (∀ (role : String) (rid : Nat) (e : Err),
      (delete_reviews s role rid).1 = .error e →
      (delete_reviews s role rid).2 = s) ∧
    (∀ pid : Nat, (get_reviews_by_product s pid).2 = s) ∧
    (get_all_reviews s).2 = s := by
  refine ⟨?_, ?_, ?_, rfl⟩
  · intro role uid pid c g nid now e herr
    unfold create_reviews at herr ⊢
    by_cases hrole : role ≠ "buyer"
    · rw [if_pos hrole]
    rw [if_neg hrole] at herr ⊢
    cases hfp : findActiveProduct s.products pid with
    | none => rfl
    | some p0 =>
      rw [hfp] at herr
      dsimp only at herr ⊢
      by_cases hg : g < 1 ∨ 5 < g
      · rw [if_pos hg]
      · rw [if_neg hg] at herr
        simp at herr
  · intro role rid e herr
    unfold delete_reviews at herr ⊢
    by_cases hrole : role ≠ "admin"
    · rw [if_pos hrole]
    rw [if_neg hrole] at herr ⊢
    cases hfr : findActiveReview s.reviews rid with
    | none => rfl
    | some r0 =>
      rw [hfr] at herr
      dsimp only at herr
      simp at herr
  · intro pid
    unfold get_reviews_by_product
    cases findActiveProduct s.products pid <;> rfl

/-- Witness for C10 at `demoStore`: a forbidden create, a not-found
delete, and both listings leave the store untouched. -/
theorem error_paths_leave_store_unchanged_witness :
    (create_reviews demoStore "admin" 7 1 "hi" 3 6 60).2 = demoStore ∧
    (delete_reviews demoStore "admin" 99).2 = demoStore ∧
    (get_reviews_by_product demoStore 1).2 = demoStore ∧
    (get_all_reviews demoStore).2 = demoStore := by
  have h := error_paths_leave_store_unchanged demoStore
  exact ⟨h.1 "admin" 7 1 "hi" 3 6 60 .Forbidden (by rfl),
    h.2.1 "admin" 99 .NotFound (by rfl), h.2.2.1 1, h.2.2.2⟩

end FastapiShop
